import Mathlib

/-!
Verification of the MACE_Freeze active-learning core.

Shallow embedding of the algorithmic core of the repository:
  - check_convergence.py  (convergence criteria)
  - split_dataset_pool.py (train/valid/pool splitter)
  - mace_active_learning.py (top_k structure selection, force_rms_std)
  - model_disagreement.py (score_force_rms_std)
  - checkpoint_resolver.py (resolve_checkpoint_in_dir)
  - mace_freeze.py (compute_freeze_keys)

Numbers that are Python floats are embedded as rationals (exact arithmetic);
quantities that the source passes through sqrt live in the reals.
-/

namespace MaceFreeze

/-! ### Generic helpers -/

/-- Decimal digits to a natural number, mirroring Python int() on a digit string. -/
def digitsToNat (ds : List Char) : Nat :=
  ds.foldl (fun a c => a * 10 + (c.toNat - 48)) 0

/-- Boolean test that the first list is an initial segment of the second. -/
def prefixCheck : List Char → List Char → Bool
  | [], _ => true
  | _ :: _, [] => false
  | a :: ps, b :: hs => a == b && prefixCheck ps hs

/-- Boolean test that the first list occurs contiguously inside the second.
Embeds the Python substring operator, p in s. -/
def infixCheck (p : List Char) : List Char → Bool
  | [] => prefixCheck p []
  | b :: t => prefixCheck p (b :: t) || infixCheck p t

/-- Python substring containment, pat in hay, on strings. -/
def strContains (hay pat : String) : Bool :=
  infixCheck pat.toList hay.toList

/-! ### mace_freeze.py, compute_freeze_keys -/

/-- Embedding of compute_freeze_keys: a key is frozen iff it contains some
freeze pattern as a substring and no unfreeze pattern as a substring;
input order of keys is preserved. -/
def compute_freeze_keys (keys freeze unfreeze : List String) : List String :=
  keys.filter (fun k =>
    freeze.any (fun p => strContains k p) && !(unfreeze.any (fun p => strContains k p)))

/-! ### check_convergence.py -/

/-- The stats object of a disagreement report: max, mean, count. -/
structure Stats where
  max : ℚ
  mean : ℚ
  count : Nat
deriving DecidableEq

/-- A disagreement report as consumed by check_convergence: optional
precomputed stats (absent or empty dict embeds as none), the per-structure
scores, and an optional pool_size field. -/
structure Report where
  stats : Option Stats
  per_structure : List ℚ
  pool_size : Option Nat
deriving DecidableEq

/-- np.max over a nonempty list (0 is never hit by the source on the empty
list thanks to its length guard). -/
def listMax : List ℚ → ℚ
  | [] => 0
  | x :: xs => xs.foldl max x

/-- The score_max value of check_convergence: stats.max when stats are
present, else np.max of the per-structure scores (0.0 when there are none). -/
def scoreMax (d : Report) : ℚ :=
  match d.stats with
  | some s => s.max
  | none => if 0 < d.per_structure.length then listMax d.per_structure else 0

/-- The score_mean value of check_convergence: stats.mean when stats are
present, else np.mean of the per-structure scores (0.0 when there are none). -/
def scoreMean (d : Report) : ℚ :=
  match d.stats with
  | some s => s.mean
  | none =>
    if 0 < d.per_structure.length then
      d.per_structure.sum / (d.per_structure.length : ℚ)
    else 0

/-- The score_count value of check_convergence: stats.count when stats are
present, else the number of per-structure scores. -/
def scoreCount (d : Report) : Nat :=
  match d.stats with
  | some s => s.count
  | none => d.per_structure.length

/-- Unit conversion constant of check_convergence. -/
def EV_PER_ANG_TO_MEV : ℚ := 1000

/-- Number of per-structure scores strictly above the (already down-converted)
cutoff, mirroring the generator sum in check_convergence. -/
def aboveCutoff (per : List ℚ) (cutoff_ev : ℚ) : Nat :=
  (per.filter (fun s => decide (cutoff_ev < s))).length

/-- Tag for each textual reason string check_convergence can append. -/
inductive Reason where
  | disagreementLow
  | poolExhausted
  | maeGood
deriving DecidableEq

/-- The metrics dictionary of the convergence result. Diagnostic string
fields are embedded as presence flags. -/
structure Metrics where
  disagreement_max : ℚ
  disagreement_mean : ℚ
  pool_size : Nat
  disagreement_reason : Bool
  structures_above_cutoff : Nat
  validation_mae_energy : Option ℚ
  validation_mae_force : Option ℚ
  mae_reason : Bool
deriving DecidableEq

/-- The return value of check_convergence. -/
structure CResult where
  converged : Bool
  reasons : List Reason
  suggest_stop : Bool
  metrics : Metrics
deriving DecidableEq

/-- Criterion 1 of check_convergence: disagreement_low, on the already
extracted score_max and score_mean. -/
def dlowB (score_max score_mean t_max t_mean : ℚ) : Bool :=
  decide (score_max * EV_PER_ANG_TO_MEV ≤ t_max) &&
    decide (score_mean * EV_PER_ANG_TO_MEV ≤ t_mean)

/-- Criterion 2 of check_convergence: pool_exhausted. -/
def pexB (per : List ℚ) (score_count : Nat) (cutoff : ℚ) : Bool :=
  decide (aboveCutoff per (cutoff / EV_PER_ANG_TO_MEV) = 0) && decide (0 < score_count)

/-- Criterion 3 of check_convergence: mae_ok (False when no validation MAE
was supplied). -/
def maeB (validation_mae : Option (ℚ × ℚ)) (t_energy t_force : ℚ) : Bool :=
  match validation_mae with
  | some (e, f) => decide (e ≤ t_energy) && decide (f ≤ t_force)
  | none => false

/-- Body of check_convergence below the stats-extraction branch, as a
function of the three extracted score statistics. -/
def convergenceCore (score_max score_mean : ℚ) (score_count : Nat) (per : List ℚ)
    (pool_size : Nat) (validation_mae : Option (ℚ × ℚ))
    (disagreement_max_threshold disagreement_mean_threshold
      mae_energy_threshold mae_force_threshold pool_exhaustion_cutoff : ℚ) : CResult :=
  let score_max_mev := score_max * EV_PER_ANG_TO_MEV
  let score_mean_mev := score_mean * EV_PER_ANG_TO_MEV
  let disagreement_low : Bool :=
    dlowB score_max score_mean disagreement_max_threshold disagreement_mean_threshold
  let above := aboveCutoff per (pool_exhaustion_cutoff / EV_PER_ANG_TO_MEV)
  let pool_exhausted : Bool := pexB per score_count pool_exhaustion_cutoff
  let mae_ok : Bool := maeB validation_mae mae_energy_threshold mae_force_threshold
  let reasons : List Reason :=
    (if disagreement_low then [Reason.disagreementLow] else []) ++
      (if pool_exhausted then [Reason.poolExhausted] else []) ++
        (if mae_ok then [Reason.maeGood] else [])
  let converged : Bool := !reasons.isEmpty
  let suggest_stop : Bool :=
    converged ||
      (match validation_mae with
       | some _ => mae_ok
       | none => false)
  { converged := converged
    reasons := reasons
    suggest_stop := suggest_stop
    metrics :=
      { disagreement_max := score_max_mev
        disagreement_mean := score_mean_mev
        pool_size := pool_size
        disagreement_reason := !disagreement_low
        structures_above_cutoff := above
        validation_mae_energy := validation_mae.map Prod.fst
        validation_mae_force := validation_mae.map Prod.snd
        mae_reason := validation_mae.isSome && !mae_ok } }

/-- Embedding of check_convergence: extract score_max, score_mean, score_count
from stats when present, else recompute from per_structure, then evaluate the
three criteria. -/
def check_convergence (d : Report) (validation_mae : Option (ℚ × ℚ))
    (disagreement_max_threshold disagreement_mean_threshold
      mae_energy_threshold mae_force_threshold pool_exhaustion_cutoff : ℚ) : CResult :=
  convergenceCore (scoreMax d) (scoreMean d) (scoreCount d) d.per_structure
    (d.pool_size.getD d.per_structure.length) validation_mae
    disagreement_max_threshold disagreement_mean_threshold
    mae_energy_threshold mae_force_threshold pool_exhaustion_cutoff

/-! ### checkpoint_resolver.py -/

/-- A directory entry: file name and modification time. -/
structure FileEntry where
  name : String
  mtime : ℚ
deriving DecidableEq

/-- The regex search EPOCH_RE on a file name: the name must end in
a case-insensitive ".pt" immediately preceded by a nonempty digit run
immediately preceded by a case-insensitive "epoch-"; returns the digit run
as a number. -/
def parseEpoch (name : String) : Option Nat :=
  match (name.toList.map Char.toLower).reverse with
  | 't' :: 'p' :: '.' :: rest =>
    let digitsRev := rest.takeWhile Char.isDigit
    if digitsRev.isEmpty then none
    else if prefixCheck ['-', 'h', 'c', 'o', 'p', 'e'] (rest.drop digitsRev.length) then
      some (digitsToNat digitsRev.reverse)
    else none
  | _ => none

/-- The sort key of resolve_checkpoint_in_dir: (epoch from the file name,
-1 when unparseable; modification time). -/
def sort_key (e : FileEntry) : Int × ℚ :=
  (match parseEpoch e.name with
   | some n => (n : Int)
   | none => -1,
   e.mtime)

/-- Lexicographic order on sort keys. -/
def keyLe (a b : Int × ℚ) : Prop :=
  a.1 < b.1 ∨ (a.1 = b.1 ∧ a.2 ≤ b.2)

instance : DecidableRel keyLe := fun a b => by
  unfold keyLe
  infer_instance

/-- Descending comparison between directory entries, mirroring
sort(key=sort_key, reverse=True). -/
def entryGe (a b : FileEntry) : Prop :=
  keyLe (sort_key b) (sort_key a)

instance : DecidableRel entryGe := fun a b => by
  unfold entryGe
  infer_instance

instance : IsTotal FileEntry entryGe := ⟨by
  intro a b
  unfold entryGe keyLe
  rcases lt_trichotomy (sort_key b).1 (sort_key a).1 with h | h | h
  · exact Or.inl (Or.inl h)
  · rcases le_total (sort_key b).2 (sort_key a).2 with h2 | h2
    · exact Or.inl (Or.inr ⟨h, h2⟩)
    · exact Or.inr (Or.inr ⟨h.symm, h2⟩)
  · exact Or.inr (Or.inl h)⟩

instance : IsTrans FileEntry entryGe := ⟨by
  intro a b c hab hbc
  unfold entryGe keyLe at hab hbc ⊢
  rcases hbc with h2 | ⟨e2, le2⟩ <;> rcases hab with h1 | ⟨e1, le1⟩
  · exact Or.inl (h2.trans h1)
  · exact Or.inl (lt_of_lt_of_le h2 (le_of_eq e1))
  · exact Or.inl (lt_of_le_of_lt (le_of_eq e2) h1)
  · exact Or.inr ⟨e2.trans e1, le2.trans le1⟩⟩

/-- Embedding of resolve_checkpoint_in_dir. The filesystem directory is
embedded as an Option: none for a missing directory, otherwise the entry
list in directory-scan order. The function never writes: it is pure. -/
def resolve_checkpoint_in_dir (dir : Option (List FileEntry)) : Option String :=
  match dir with
  | none => none
  | some entries =>
    if entries.any (fun e => e.name == "best.pt") then some "best.pt"
    else
      let pt_files := entries.filter (fun e => e.name.endsWith ".pt")
      if pt_files.isEmpty then none
      else (List.insertionSort entryGe pt_files).head?.map FileEntry.name

/-! ### model_disagreement.py, score_force_rms_std -/

/-- Squared Euclidean norm of one force vector. -/
def sqNorm (v : ℚ × ℚ × ℚ) : ℚ :=
  v.1 ^ 2 + v.2.1 ^ 2 + v.2.2 ^ 2

/-- Mean of the squared force magnitudes of one member's prediction
(rational, hence exactly computable). -/
def meanSqMag (F : List (ℚ × ℚ × ℚ)) : ℚ :=
  (F.map sqNorm).sum / (F.length : ℚ)

/-- np.linalg.norm(forces, axis=-1) for one member: per-atom magnitudes. -/
noncomputable def atomMags (F : List (ℚ × ℚ × ℚ)) : List ℝ :=
  F.map (fun v => Real.sqrt ((sqNorm v : ℝ)))

/-- np.sqrt(np.mean(mags**2, axis=1)) for one member: the per-structure RMS
force magnitude. -/
noncomputable def rmsMag (F : List (ℚ × ℚ × ℚ)) : ℝ :=
  Real.sqrt (((atomMags F).map (fun m => m ^ 2)).sum / (F.length : ℝ))

/-- Mean of a list of reals. -/
noncomputable def meanList (l : List ℝ) : ℝ :=
  l.sum / (l.length : ℝ)

/-- np.std: population standard deviation (ddof = 0). -/
noncomputable def stdList (l : List ℝ) : ℝ :=
  Real.sqrt ((l.map (fun x => (x - meanList l) ^ 2)).sum / (l.length : ℝ))

/-- Embedding of score_force_rms_std (identical to force_rms_std of
mace_active_learning.py): per-member RMS force magnitude, then the standard
deviation of that scalar across members. -/
noncomputable def score_force_rms_std (stack : List (List (ℚ × ℚ × ℚ))) : ℝ :=
  stdList (stack.map rmsMag)

/-! ### mace_active_learning.py, top_k -/

/-- Index comparison used to model numpy index sorting of an array a:
ascending by value, ties by ascending index (numpy only documents the value
order; the index tie-break models its small-array insertion-sort behaviour,
making the result deterministic). -/
def idxLe (a : List ℚ) (i j : Nat) : Prop :=
  a.getD i 0 < a.getD j 0 ∨ (a.getD i 0 = a.getD j 0 ∧ i ≤ j)

instance (a : List ℚ) : DecidableRel (idxLe a) := fun i j => by
  unfold idxLe
  infer_instance

instance (a : List ℚ) : IsTotal Nat (idxLe a) := ⟨by
  intro i j
  unfold idxLe
  rcases lt_trichotomy (a.getD i 0) (a.getD j 0) with h | h | h
  · exact Or.inl (Or.inl h)
  · rcases Nat.le_total i j with h2 | h2
    · exact Or.inl (Or.inr ⟨h, h2⟩)
    · exact Or.inr (Or.inr ⟨h.symm, h2⟩)
  · exact Or.inr (Or.inl h)⟩

instance (a : List ℚ) : IsTrans Nat (idxLe a) := ⟨by
  intro i j k hij hjk
  unfold idxLe at hij hjk ⊢
  rcases hij with h1 | ⟨e1, le1⟩ <;> rcases hjk with h2 | ⟨e2, le2⟩
  · exact Or.inl (h1.trans h2)
  · exact Or.inl (lt_of_lt_of_le h1 (le_of_eq e2))
  · exact Or.inl (lt_of_le_of_lt (le_of_eq e1) h2)
  · exact Or.inr ⟨e1.trans e2, le1.trans le2⟩⟩

/-- Model of np.argsort on an array: the permutation of range(len(a))
sorting a ascending (stable in the index tie-break). -/
def argsort (a : List ℚ) : List Nat :=
  List.insertionSort (idxLe a) (List.range a.length)

/-- Model of np.argpartition(a, kth): raises ValueError (none) when
kth is out of bounds, kth >= len(a); otherwise some index permutation whose
first kth entries are the kth smallest — modelled by the fully sorted
permutation, which refines the documented partial guarantee. -/
def argpartition (a : List ℚ) (kth : Nat) : Option (List Nat) :=
  if kth < a.length then some (argsort a) else none

/-- Embedding of top_k: idx = argpartition(-scores, k)[:k], then reorder idx
by argsort(-scores[idx]). none embeds the ValueError numpy raises when
k >= len(scores). -/
def top_k (scores : List ℚ) (k : Nat) : Option (List Nat) :=
  match argpartition (scores.map (fun s => -s)) k with
  | none => none
  | some part =>
    let idx := part.take k
    let inner := argsort (idx.map (fun i => -(scores.getD i 0)))
    some (inner.map (fun j => idx.getD j 0))

/-! ### split_dataset_pool.py -/

/-- Mixing function driving the modelled shuffle. -/
def mix (seed i : Nat) : Nat :=
  (seed * 2654435761 + i * 40503 + 12345) % 65536

/-- Seeded comparison of indices: by mixed key, ties by index. -/
def shufLe (seed : Nat) (i j : Nat) : Prop :=
  mix seed i < mix seed j ∨ (mix seed i = mix seed j ∧ i ≤ j)

instance (seed : Nat) : DecidableRel (shufLe seed) := fun i j => by
  unfold shufLe
  infer_instance

/-- Modelled from the spec: random.seed(seed) followed by
random.shuffle(range(N)) — the Mersenne-Twister shuffle of the Python
standard library is not part of the repository; the spec requires only a
reproducible pseudorandom permutation of range(N) fully determined by the
seed, which this seeded key sort provides. -/
def pyShuffle (seed n : Nat) : List Nat :=
  List.insertionSort (shufLe seed) (List.range n)

/-- int(n_total * fraction) of the source: floor for the nonnegative
fractions the splitter is used with. -/
def floorFrac (f : ℚ) (n : Nat) : Nat :=
  (⌊(n : ℚ) * f⌋).toNat

/-- Outcome of the splitter: the three emitted partitions (as index lists in
original dataset order, mirroring the membership filters of the source) and
the n_train value the source computes. -/
structure SplitResult where
  train : List Nat
  valid : List Nat
  pool : List Nat
  n_train : Int
deriving DecidableEq

/-- Embedding of the split logic of split_dataset_pool.py main(): sizes from
the fractions, seeded shuffle of range(n_total), slice assignment
valid / pool / train, and emission of each partition by filtering the
original index order by slice membership. Note the source computes
n_train = max(1, n_total - n_valid - n_pool) but never uses it: the train
slice is indices[n_valid + n_pool :]. The embedding keeps both. -/
def splitPool (seed : Nat) (valid_fraction pool_fraction : ℚ) (n_total : Nat) : SplitResult :=
  let n_valid := floorFrac valid_fraction n_total
  let n_pool := floorFrac pool_fraction n_total
  let n_train : Int := max 1 ((n_total : Int) - n_valid - n_pool)
  let indices := pyShuffle seed n_total
  let valid_idx := indices.take n_valid
  let pool_idx := (indices.drop n_valid).take n_pool
  let train_idx := indices.drop (n_valid + n_pool)
  { train := (List.range n_total).filter (fun i => decide (i ∈ train_idx))
    valid := (List.range n_total).filter (fun i => decide (i ∈ valid_idx))
    pool := (List.range n_total).filter (fun i => decide (i ∈ pool_idx))
    n_train := n_train }

/-! ### Helper lemmas -/

theorem prefixCheck_iff (p l : List Char) : prefixCheck p l = true ↔ p <+: l := by
  induction p generalizing l with
  | nil => simp [prefixCheck]
  | cons a ps ih =>
    cases l with
    | nil => simp [prefixCheck]
    | cons b hs =>
      simp [prefixCheck, List.cons_prefix_cons, ih, Bool.and_eq_true, beq_iff_eq]

theorem infixCheck_iff (p l : List Char) : infixCheck p l = true ↔ p <:+: l := by
  induction l with
  | nil =>
    cases p with
    | nil => simp [infixCheck, prefixCheck]
    | cons a ps => simp [infixCheck, prefixCheck]
  | cons b t ih =>
    simp [infixCheck, Bool.or_eq_true, prefixCheck_iff, ih, List.infix_cons_iff]

theorem strContains_iff (hay pat : String) :
    strContains hay pat = true ↔ pat.toList <:+: hay.toList := by
  simp [strContains, infixCheck_iff]

/-! ### C8: compute_freeze_keys -/

/-- C8: compute_freeze_keys returns exactly the keys containing at least one
freeze pattern as a substring and none of the unfreeze patterns as a
substring (plain containment), preserving input key order (the result is a
sublist of the input); on the example keys, freeze patterns embedding and
radial, unfreeze pattern readout, it returns embedding.0.weight and
radial.mlp.bias. -/
theorem c8_compute_freeze_keys :
    (∀ (keys freeze unfreeze : List String) (k : String),
      k ∈ compute_freeze_keys keys freeze unfreeze ↔
        k ∈ keys ∧ (∃ p ∈ freeze, p.toList <:+: k.toList) ∧
          ∀ p ∈ unfreeze, ¬ (p.toList <:+: k.toList)) ∧
    (∀ keys freeze unfreeze : List String,
      (compute_freeze_keys keys freeze unfreeze).Sublist keys) ∧
    compute_freeze_keys ["embedding.0.weight", "readout.linear.weight", "radial.mlp.bias"]
      ["embedding", "radial"] ["readout"] =
      ["embedding.0.weight", "radial.mlp.bias"] := by
  refine ⟨fun keys freeze unfreeze k => ?_, fun keys freeze unfreeze => ?_, by decide⟩
  · simp [compute_freeze_keys, List.mem_filter, List.any_eq_true, strContains_iff,
      and_assoc]
  · exact List.filter_sublist keys

/-- C8 witness: the general characterisation instantiated at the concrete
example key set. -/
theorem c8_compute_freeze_keys_witness :
    ("radial.mlp.bias" ∈ compute_freeze_keys
        ["embedding.0.weight", "readout.linear.weight", "radial.mlp.bias"]
        ["embedding", "radial"] ["readout"] ↔
      "radial.mlp.bias" ∈
          (["embedding.0.weight", "readout.linear.weight", "radial.mlp.bias"] : List String) ∧
        (∃ p ∈ (["embedding", "radial"] : List String),
          p.toList <:+: "radial.mlp.bias".toList) ∧
        ∀ p ∈ (["readout"] : List String), ¬ (p.toList <:+: "radial.mlp.bias".toList)) ∧
    (compute_freeze_keys ["embedding.0.weight", "readout.linear.weight", "radial.mlp.bias"]
        ["embedding", "radial"] ["readout"]).Sublist
      ["embedding.0.weight", "readout.linear.weight", "radial.mlp.bias"] :=
  ⟨c8_compute_freeze_keys.1 _ _ _ _, c8_compute_freeze_keys.2.1 _ _ _⟩

/-! ### Convergence: core lemmas -/

theorem core_reasons_def (smax smean : ℚ) (scount : Nat) (per : List ℚ) (psize : Nat)
    (vmae : Option (ℚ × ℚ)) (t1 t2 t3 t4 t5 : ℚ) :
    (convergenceCore smax smean scount per psize vmae t1 t2 t3 t4 t5).reasons =
      (if dlowB smax smean t1 t2 then [Reason.disagreementLow] else []) ++
        (if pexB per scount t5 then [Reason.poolExhausted] else []) ++
          (if maeB vmae t3 t4 then [Reason.maeGood] else []) := rfl

theorem core_converged_def (smax smean : ℚ) (scount : Nat) (per : List ℚ) (psize : Nat)
    (vmae : Option (ℚ × ℚ)) (t1 t2 t3 t4 t5 : ℚ) :
    (convergenceCore smax smean scount per psize vmae t1 t2 t3 t4 t5).converged =
      !((convergenceCore smax smean scount per psize vmae t1 t2 t3 t4 t5).reasons).isEmpty :=
  rfl

theorem core_suggest_def (smax smean : ℚ) (scount : Nat) (per : List ℚ) (psize : Nat)
    (vmae : Option (ℚ × ℚ)) (t1 t2 t3 t4 t5 : ℚ) :
    (convergenceCore smax smean scount per psize vmae t1 t2 t3 t4 t5).suggest_stop =
      ((convergenceCore smax smean scount per psize vmae t1 t2 t3 t4 t5).converged ||
        maeB vmae t3 t4) := by
  cases vmae <;> rfl

theorem core_metrics_def (smax smean : ℚ) (scount : Nat) (per : List ℚ) (psize : Nat)
    (vmae : Option (ℚ × ℚ)) (t1 t2 t3 t4 t5 : ℚ) :
    (convergenceCore smax smean scount per psize vmae t1 t2 t3 t4 t5).metrics.disagreement_max =
        smax * EV_PER_ANG_TO_MEV ∧
      (convergenceCore smax smean scount per psize vmae t1 t2 t3 t4 t5).metrics.disagreement_mean =
        smean * EV_PER_ANG_TO_MEV ∧
      (convergenceCore smax smean scount per psize vmae t1 t2 t3 t4
            t5).metrics.structures_above_cutoff =
        aboveCutoff per (t5 / EV_PER_ANG_TO_MEV) :=
  ⟨rfl, rfl, rfl⟩

theorem reasons_build_facts (b1 b2 b3 : Bool) :
    (Reason.disagreementLow ∈
        (if b1 then [Reason.disagreementLow] else []) ++
          (if b2 then [Reason.poolExhausted] else []) ++
            (if b3 then [Reason.maeGood] else []) ↔ b1 = true) ∧
      (Reason.poolExhausted ∈
        (if b1 then [Reason.disagreementLow] else []) ++
          (if b2 then [Reason.poolExhausted] else []) ++
            (if b3 then [Reason.maeGood] else []) ↔ b2 = true) ∧
      (Reason.maeGood ∈
        (if b1 then [Reason.disagreementLow] else []) ++
          (if b2 then [Reason.poolExhausted] else []) ++
            (if b3 then [Reason.maeGood] else []) ↔ b3 = true) ∧
      ((!((if b1 then [Reason.disagreementLow] else []) ++
          (if b2 then [Reason.poolExhausted] else []) ++
            (if b3 then [Reason.maeGood] else [])).isEmpty) = (b1 || b2 || b3)) := by
  revert b1 b2 b3
  decide

theorem dlowB_iff (smax smean t1 t2 : ℚ) :
    dlowB smax smean t1 t2 = true ↔
      smax * EV_PER_ANG_TO_MEV ≤ t1 ∧ smean * EV_PER_ANG_TO_MEV ≤ t2 := by
  simp [dlowB]

theorem pexB_iff (per : List ℚ) (c : Nat) (t5 : ℚ) :
    pexB per c t5 = true ↔ aboveCutoff per (t5 / EV_PER_ANG_TO_MEV) = 0 ∧ 0 < c := by
  simp [pexB]

theorem maeB_iff (vmae : Option (ℚ × ℚ)) (t3 t4 : ℚ) :
    maeB vmae t3 t4 = true ↔ ∃ e f, vmae = some (e, f) ∧ e ≤ t3 ∧ f ≤ t4 := by
  cases vmae with
  | none => simp [maeB]
  | some p =>
    obtain ⟨e, f⟩ := p
    simp only [maeB, Bool.and_eq_true, decide_eq_true_eq, Option.some.injEq, Prod.mk.injEq]
    constructor
    · rintro ⟨h1, h2⟩
      exact ⟨e, f, ⟨rfl, rfl⟩, h1, h2⟩
    · rintro ⟨e', f', ⟨he, hf⟩, h1, h2⟩
      rw [he, hf]
      exact ⟨h1, h2⟩

theorem core_converged_iff (smax smean : ℚ) (scount : Nat) (per : List ℚ) (psize : Nat)
    (vmae : Option (ℚ × ℚ)) (t1 t2 t3 t4 t5 : ℚ) :
    ((convergenceCore smax smean scount per psize vmae t1 t2 t3 t4 t5).converged = true ↔
      dlowB smax smean t1 t2 = true ∨ pexB per scount t5 = true ∨ maeB vmae t3 t4 = true) := by
  rw [core_converged_def, core_reasons_def,
    (reasons_build_facts (dlowB smax smean t1 t2) (pexB per scount t5) (maeB vmae t3 t4)).2.2.2]
  simp [or_assoc]

/-! ### C10: suggest_stop equals converged -/

/-- C10: for every disagreement report, every optional validation MAE and
all threshold values, check_convergence returns suggest_stop equal to
converged: whenever mae_ok holds its reason was already appended, so the
extra disjunct in suggest_stop can never differ from converged. -/
theorem c10_suggest_stop_eq_converged (d : Report) (vmae : Option (ℚ × ℚ))
    (t1 t2 t3 t4 t5 : ℚ) :
    (check_convergence d vmae t1 t2 t3 t4 t5).suggest_stop =
      (check_convergence d vmae t1 t2 t3 t4 t5).converged := by
  unfold check_convergence
  rw [core_suggest_def, core_converged_def, core_reasons_def,
    (reasons_build_facts (dlowB (scoreMax d) (scoreMean d) t1 t2)
      (pexB d.per_structure (scoreCount d) t5) (maeB vmae t3 t4)).2.2.2]
  cases maeB vmae t3 t4 <;> simp

/-! ### C1: OR semantics of convergence -/

/-- C1: converged is true iff at least one of the three criteria holds
(logical OR); whenever the scaled max and mean scores are below their
thresholds, converged is true and the disagreement-low reason is recorded,
for any validation_mae including none; and when validation_mae is none,
criterion 3 contributes neither to reasons nor to suggest_stop. -/
theorem c1_convergence_or (d : Report) (vmae : Option (ℚ × ℚ)) (t1 t2 t3 t4 t5 : ℚ) :
    ((check_convergence d vmae t1 t2 t3 t4 t5).converged = true ↔
      (scoreMax d * EV_PER_ANG_TO_MEV ≤ t1 ∧ scoreMean d * EV_PER_ANG_TO_MEV ≤ t2) ∨
        (aboveCutoff d.per_structure (t5 / EV_PER_ANG_TO_MEV) = 0 ∧ 0 < scoreCount d) ∨
          (∃ e f, vmae = some (e, f) ∧ e ≤ t3 ∧ f ≤ t4)) ∧
    ((scoreMax d * EV_PER_ANG_TO_MEV ≤ t1 ∧ scoreMean d * EV_PER_ANG_TO_MEV ≤ t2) →
      (check_convergence d vmae t1 t2 t3 t4 t5).converged = true ∧
        Reason.disagreementLow ∈ (check_convergence d vmae t1 t2 t3 t4 t5).reasons) ∧
    (vmae = none →
      Reason.maeGood ∉ (check_convergence d vmae t1 t2 t3 t4 t5).reasons ∧
        (check_convergence d vmae t1 t2 t3 t4 t5).suggest_stop =
          (check_convergence d vmae t1 t2 t3 t4 t5).converged) := by
  have hm := reasons_build_facts (dlowB (scoreMax d) (scoreMean d) t1 t2)
    (pexB d.per_structure (scoreCount d) t5) (maeB vmae t3 t4)
  refine ⟨?_, ?_, ?_⟩
  · rw [show check_convergence d vmae t1 t2 t3 t4 t5 =
      convergenceCore (scoreMax d) (scoreMean d) (scoreCount d) d.per_structure
        (d.pool_size.getD d.per_structure.length) vmae t1 t2 t3 t4 t5 from rfl,
      core_converged_iff, dlowB_iff, pexB_iff, maeB_iff]
  · intro h
    have hd : dlowB (scoreMax d) (scoreMean d) t1 t2 = true := (dlowB_iff _ _ _ _).mpr h
    constructor
    · rw [show check_convergence d vmae t1 t2 t3 t4 t5 =
        convergenceCore (scoreMax d) (scoreMean d) (scoreCount d) d.per_structure
          (d.pool_size.getD d.per_structure.length) vmae t1 t2 t3 t4 t5 from rfl,
        core_converged_iff]
      exact Or.inl hd
    · rw [show (check_convergence d vmae t1 t2 t3 t4 t5).reasons =
        (convergenceCore (scoreMax d) (scoreMean d) (scoreCount d) d.per_structure
          (d.pool_size.getD d.per_structure.length) vmae t1 t2 t3 t4 t5).reasons from rfl,
        core_reasons_def]
      exact (hm.1).mpr hd
  · intro hnone
    subst hnone
    constructor
    · rw [show (check_convergence d none t1 t2 t3 t4 t5).reasons =
        (convergenceCore (scoreMax d) (scoreMean d) (scoreCount d) d.per_structure
          (d.pool_size.getD d.per_structure.length) none t1 t2 t3 t4 t5).reasons from rfl,
        core_reasons_def]
      intro hmem
      have : maeB (none : Option (ℚ × ℚ)) t3 t4 = true := (hm.2.2.1).mp hmem
      simp [maeB] at this
    · exact c10_suggest_stop_eq_converged d none t1 t2 t3 t4 t5

/-- C1 witness: instantiation at a concrete report whose scaled max and mean
scores (10 and 4) are at or below the default thresholds, with absent
validation MAE. -/
theorem c1_convergence_or_witness :
    (check_convergence ⟨some ⟨1/100, 1/250, 5⟩, [], none⟩ none 10 5 50 50 1).converged = true ∧
      Reason.disagreementLow ∈
        (check_convergence ⟨some ⟨1/100, 1/250, 5⟩, [], none⟩ none 10 5 50 50 1).reasons :=
  (c1_convergence_or ⟨some ⟨1/100, 1/250, 5⟩, [], none⟩ none 10 5 50 50 1).2.1
    (by with_unfolding_all decide)

/-! ### C2: unit conversion discipline -/

theorem aboveCutoff_eq_zero_iff (per : List ℚ) (c : ℚ) :
    aboveCutoff per c = 0 ↔ ∀ s ∈ per, s ≤ c := by
  simp [aboveCutoff, List.length_eq_zero, List.filter_eq_nil_iff, not_lt]

/-- C2: the x1000 unit conversion is applied exactly once to both the max
and the mean statistic before threshold comparison (so a report with raw
stats.max 0.010 and threshold 10 evaluates as low, 10 less-or-equal 10), and
the pool-exhaustion cutoff is divided by 1000 before the strict comparison
with raw per-structure scores, so a report all of whose scores are at most
cutoff/1000 with positive score count records the pool-exhausted reason
with structures_above_cutoff equal to 0. -/
theorem c2_unit_scaling :
    (Reason.disagreementLow ∈
        (check_convergence ⟨some ⟨1/100, 1/250, 5⟩, [], none⟩ none 10 5 50 50 1).reasons ∧
      (check_convergence ⟨some ⟨1/100, 1/250, 5⟩, [], none⟩ none 10 5 50 50
          1).metrics.disagreement_max = 10) ∧
    (∀ (d : Report) (vmae : Option (ℚ × ℚ)) (t1 t2 t3 t4 t5 : ℚ),
      (check_convergence d vmae t1 t2 t3 t4 t5).metrics.disagreement_max =
          scoreMax d * EV_PER_ANG_TO_MEV ∧
        (check_convergence d vmae t1 t2 t3 t4 t5).metrics.disagreement_mean =
          scoreMean d * EV_PER_ANG_TO_MEV) ∧
    (∀ (d : Report) (vmae : Option (ℚ × ℚ)) (t1 t2 t3 t4 t5 : ℚ),
      (∀ s ∈ d.per_structure, s ≤ t5 / EV_PER_ANG_TO_MEV) → 0 < scoreCount d →
        Reason.poolExhausted ∈ (check_convergence d vmae t1 t2 t3 t4 t5).reasons ∧
          (check_convergence d vmae t1 t2 t3 t4 t5).metrics.structures_above_cutoff = 0) := by
  refine ⟨by with_unfolding_all decide, fun d vmae t1 t2 t3 t4 t5 => ⟨rfl, rfl⟩,
    fun d vmae t1 t2 t3 t4 t5 hall hcount => ?_⟩
  have habove : aboveCutoff d.per_structure (t5 / EV_PER_ANG_TO_MEV) = 0 :=
    (aboveCutoff_eq_zero_iff _ _).mpr hall
  have hpex : pexB d.per_structure (scoreCount d) t5 = true :=
    (pexB_iff _ _ _).mpr ⟨habove, hcount⟩
  have hm := reasons_build_facts (dlowB (scoreMax d) (scoreMean d) t1 t2)
    (pexB d.per_structure (scoreCount d) t5) (maeB vmae t3 t4)
  constructor
  · rw [show (check_convergence d vmae t1 t2 t3 t4 t5).reasons =
      (convergenceCore (scoreMax d) (scoreMean d) (scoreCount d) d.per_structure
        (d.pool_size.getD d.per_structure.length) vmae t1 t2 t3 t4 t5).reasons from rfl,
      core_reasons_def]
    exact (hm.2.1).mpr hpex
  · exact habove

/-- C2 witness: the pool-exhaustion branch instantiated at a one-structure
report whose only score 0.0005 is at most cutoff/1000 = 0.001. -/
theorem c2_unit_scaling_witness :
    Reason.poolExhausted ∈
        (check_convergence ⟨none, [1/2000], none⟩ none 10 5 50 50 1).reasons ∧
      (check_convergence ⟨none, [1/2000], none⟩ none 10 5 50 50
          1).metrics.structures_above_cutoff = 0 :=
  c2_unit_scaling.2.2 ⟨none, [1/2000], none⟩ none 10 5 50 50 1
    (by with_unfolding_all decide) (by with_unfolding_all decide)

/-! ### C9: recomputing stats from per-structure scores -/

/-- C9: for a report with non-empty per-structure scores, check_convergence
without precomputed stats recomputes max, mean and count with the same
formulas and returns the same result as check_convergence on the report
carrying stats (max scores, mean scores, len scores). -/
theorem c9_stats_refinement :
    ∀ (per : List ℚ) (ps : Option Nat) (vmae : Option (ℚ × ℚ)) (t1 t2 t3 t4 t5 : ℚ),
      per ≠ [] →
      check_convergence ⟨none, per, ps⟩ vmae t1 t2 t3 t4 t5 =
        check_convergence
          ⟨some ⟨listMax per, per.sum / (per.length : ℚ), per.length⟩, per, ps⟩
          vmae t1 t2 t3 t4 t5 := by
  intro per ps vmae t1 t2 t3 t4 t5 hne
  have hl : 0 < per.length := List.length_pos.mpr hne
  unfold check_convergence
  rw [show scoreMax ⟨none, per, ps⟩ = listMax per from by simp [scoreMax, hl],
    show scoreMean ⟨none, per, ps⟩ = per.sum / (per.length : ℚ) from by simp [scoreMean, hl],
    show scoreCount ⟨none, per, ps⟩ = per.length from rfl]
  rfl

/-- C9 witness: the refinement equality at a concrete two-score report. -/
theorem c9_stats_refinement_witness :
    check_convergence ⟨none, [1/1000, 3/1000], none⟩ none 10 5 50 50 1 =
      check_convergence
        ⟨some ⟨listMax [1/1000, 3/1000],
            ([1/1000, 3/1000] : List ℚ).sum / ((([1/1000, 3/1000] : List ℚ).length : ℚ)),
            ([1/1000, 3/1000] : List ℚ).length⟩,
          [1/1000, 3/1000], none⟩ none 10 5 50 50 1 :=
  c9_stats_refinement [1/1000, 3/1000] none none 10 5 50 50 1 (by simp)

/-! ### C6: splitter edge cases (evaluation at the failing inputs) -/

/-- C6: evaluation of the embedded splitter at the deciding inputs. With
N = 2 and both fractions 1/2, the source computes n_train = max(1, 0) = 1
yet emits an empty train partition, because the train slice is
indices[n_valid + n_pool :] and the clamped n_train is never used; and with
N = 0 the splitter returns three empty partitions normally instead of
reporting an invalid-input error. -/
theorem c6_split_clamp_dead_code :
    (splitPool 0 (1/2) (1/2) 2).train = [] ∧
      (splitPool 0 (1/2) (1/2) 2).n_train = 1 ∧
      (splitPool 7 (1/10) (1/5) 0).train = [] ∧
      (splitPool 7 (1/10) (1/5) 0).valid = [] ∧
      (splitPool 7 (1/10) (1/5) 0).pool = [] := by
  with_unfolding_all decide

/-! ### C3: partition properties of the splitter -/

theorem filter_mem_perm {S : List Nat} {N : Nat} (hnd : S.Nodup) (hsub : ∀ x ∈ S, x < N) :
    ((List.range N).filter (fun i => decide (i ∈ S))).Perm S := by
  apply (List.perm_ext_iff_of_nodup ((List.nodup_range N).filter _) hnd).mpr
  intro a
  simp only [List.mem_filter, List.mem_range, decide_eq_true_eq]
  exact ⟨fun h => h.2, fun h => ⟨hsub a h, h⟩⟩

/-- C3: for every N, seed and nonnegative fractions with
floor(N f_v) + floor(N f_p) at most N, the splitter is a pure function of
(seed, fractions, N) (determinism), assigns the first floor(N f_v) shuffled
indices to valid, the next floor(N f_p) to pool and the remainder to train,
the three partitions have those exact sizes, are pairwise disjoint, and
together are a permutation of range N. -/
theorem c3_split_partition (seed : Nat) (f_v f_p : ℚ) (N : Nat)
    (hN : 1 ≤ N) (hv : 0 ≤ f_v) (hp : 0 ≤ f_p)
    (hsum : floorFrac f_v N + floorFrac f_p N ≤ N) :
    (splitPool seed f_v f_p N = splitPool seed f_v f_p N) ∧
      (∀ i, i ∈ (splitPool seed f_v f_p N).valid ↔
        i ∈ (pyShuffle seed N).take (floorFrac f_v N)) ∧
      (∀ i, i ∈ (splitPool seed f_v f_p N).pool ↔
        i ∈ ((pyShuffle seed N).drop (floorFrac f_v N)).take (floorFrac f_p N)) ∧
      (∀ i, i ∈ (splitPool seed f_v f_p N).train ↔
        i ∈ (pyShuffle seed N).drop (floorFrac f_v N + floorFrac f_p N)) ∧
      (splitPool seed f_v f_p N).valid.length = floorFrac f_v N ∧
      (splitPool seed f_v f_p N).pool.length = floorFrac f_p N ∧
      (splitPool seed f_v f_p N).train.length = N - floorFrac f_v N - floorFrac f_p N ∧
      (splitPool seed f_v f_p N).valid.Disjoint (splitPool seed f_v f_p N).pool ∧
      (splitPool seed f_v f_p N).valid.Disjoint (splitPool seed f_v f_p N).train ∧
      (splitPool seed f_v f_p N).pool.Disjoint (splitPool seed f_v f_p N).train ∧
      ((splitPool seed f_v f_p N).train ++ (splitPool seed f_v f_p N).valid ++
          (splitPool seed f_v f_p N).pool).Perm (List.range N) := by
  have hperm : (pyShuffle seed N).Perm (List.range N) := List.perm_insertionSort _ _
  have hnd : (pyShuffle seed N).Nodup := hperm.symm.nodup (List.nodup_range N)
  have hlen : (pyShuffle seed N).length = N := by
    rw [hperm.length_eq, List.length_range]
  set L := pyShuffle seed N with hLdef
  set nv := floorFrac f_v N with hnv
  set np := floorFrac f_p N with hnp
  set A := L.take nv with hA
  set B := (L.drop nv).take np with hB
  set C := L.drop (nv + np) with hC
  have hdd : (L.drop nv).drop np = L.drop (nv + np) := by
    rw [List.drop_drop, Nat.add_comm]
  have hBC : B ++ C = L.drop nv := by
    rw [hB, hC, ← hdd, List.take_append_drop]
  have hABC : A ++ (B ++ C) = L := by
    rw [hBC, hA, List.take_append_drop]
  have hndABC : (A ++ (B ++ C)).Nodup := by
    rw [hABC]; exact hnd
  have h1 := List.nodup_append.mp hndABC
  have h2 := List.nodup_append.mp h1.2.1
  have hdisjAB : A.Disjoint B := fun a ha hb => h1.2.2 ha (List.mem_append_left _ hb)
  have hdisjAC : A.Disjoint C := fun a ha hb => h1.2.2 ha (List.mem_append_right _ hb)
  have hdisjBC : B.Disjoint C := h2.2.2
  have hmemL : ∀ x ∈ L, x < N := by
    intro x hx
    exact List.mem_range.mp (hperm.mem_iff.mp hx)
  have hsubA : ∀ x ∈ A, x < N := fun x hx => hmemL x ((List.take_sublist _ _).mem hx)
  have hsubB : ∀ x ∈ B, x < N :=
    fun x hx => hmemL x ((List.drop_sublist _ _).mem ((List.take_sublist _ _).mem hx))
  have hsubC : ∀ x ∈ C, x < N := fun x hx => hmemL x ((List.drop_sublist _ _).mem hx)
  have hndA : A.Nodup := h1.1
  have hndB : B.Nodup := h2.1
  have hndC : C.Nodup := h2.2.1
  have hpermA : ((List.range N).filter (fun i => decide (i ∈ A))).Perm A :=
    filter_mem_perm hndA hsubA
  have hpermB : ((List.range N).filter (fun i => decide (i ∈ B))).Perm B :=
    filter_mem_perm hndB hsubB
  have hpermC : ((List.range N).filter (fun i => decide (i ∈ C))).Perm C :=
    filter_mem_perm hndC hsubC
  have hvdef : (splitPool seed f_v f_p N).valid =
      (List.range N).filter (fun i => decide (i ∈ A)) := rfl
  have hpdef : (splitPool seed f_v f_p N).pool =
      (List.range N).filter (fun i => decide (i ∈ B)) := rfl
  have htdef : (splitPool seed f_v f_p N).train =
      (List.range N).filter (fun i => decide (i ∈ C)) := rfl
  have hlenA : A.length = nv := by
    rw [hA, List.length_take, hlen]
    exact Nat.min_eq_left (le_trans (Nat.le_add_right nv np) hsum)
  have hlenB : B.length = np := by
    rw [hB, List.length_take, List.length_drop, hlen]
    exact Nat.min_eq_left (by omega)
  have hlenC : C.length = N - nv - np := by
    rw [hC, List.length_drop, hlen, Nat.sub_sub]
  refine ⟨rfl, ?_, ?_, ?_, ?_, ?_, ?_, ?_, ?_, ?_, ?_⟩
  · intro i; rw [hvdef]; exact hpermA.mem_iff
  · intro i; rw [hpdef]; exact hpermB.mem_iff
  · intro i; rw [htdef]; exact hpermC.mem_iff
  · rw [hvdef, hpermA.length_eq, hlenA]
  · rw [hpdef, hpermB.length_eq, hlenB]
  · rw [htdef, hpermC.length_eq, hlenC]
  · intro a ha hb
    exact hdisjAB (hpermA.mem_iff.mp (hvdef ▸ ha)) (hpermB.mem_iff.mp (hpdef ▸ hb))
  · intro a ha hb
    exact hdisjAC (hpermA.mem_iff.mp (hvdef ▸ ha)) (hpermC.mem_iff.mp (htdef ▸ hb))
  · intro a ha hb
    exact hdisjBC (hpermB.mem_iff.mp (hpdef ▸ ha)) (hpermC.mem_iff.mp (htdef ▸ hb))
  · rw [htdef, hvdef, hpdef]
    have s1 : ((C ++ A) ++ B).Perm ((A ++ C) ++ B) :=
      List.perm_append_comm.append (List.Perm.refl B)
    have s3 : (A ++ (C ++ B)).Perm (A ++ (B ++ C)) :=
      List.Perm.append_left A List.perm_append_comm
    have s4 : ((A ++ C) ++ B).Perm (A ++ (B ++ C)) := by
      rw [List.append_assoc]
      exact s3
    have s5 : (A ++ (B ++ C)).Perm (List.range N) := by
      rw [hABC]
      exact hperm
    exact ((hpermC.append hpermA).append hpermB).trans ((s1.trans s4).trans s5)

/-- C3 witness: the partition properties instantiated at seed 42,
valid fraction 1/10, pool fraction 1/5, N = 10 structures. -/
theorem c3_split_partition_witness :
    (splitPool 42 (1/10) (1/5) 10).valid.length = 1 ∧
      (splitPool 42 (1/10) (1/5) 10).pool.length = 2 ∧
      (splitPool 42 (1/10) (1/5) 10).train.length = 7 ∧
      ((splitPool 42 (1/10) (1/5) 10).train ++ (splitPool 42 (1/10) (1/5) 10).valid ++
          (splitPool 42 (1/10) (1/5) 10).pool).Perm (List.range 10) := by
  obtain ⟨-, -, -, -, hlv, hlp, hlt, -, -, -, hu⟩ :=
    c3_split_partition 42 (1/10) (1/5) 10 (by norm_num) (by norm_num) (by norm_num)
      (by with_unfolding_all decide)
  refine ⟨?_, ?_, ?_, hu⟩
  · rw [hlv]; with_unfolding_all rfl
  · rw [hlp]; with_unfolding_all rfl
  · rw [hlt]; with_unfolding_all rfl

/-! ### C5: checkpoint resolution -/

theorem keyLe_refl (x : Int × ℚ) : keyLe x x :=
  Or.inr ⟨rfl, le_refl _⟩

/-- C5: the resolver returns none when the directory is missing or holds no
.pt file; returns best.pt whenever that name is present; otherwise returns a
.pt file of the directory whose (parsed epoch, modification time) sort key is
maximal, files without a parseable epoch ranking lowest with key -1 but not
excluded; the two concrete directory examples resolve to best.pt and
epoch-9.pt respectively. The embedded scan is a pure function of the
directory listing, so it cannot modify the directory. -/
theorem c5_resolver :
    (resolve_checkpoint_in_dir none = none) ∧
      (∀ entries : List FileEntry,
        (∀ e ∈ entries, e.name.endsWith ".pt" = false) →
          resolve_checkpoint_in_dir (some entries) = none) ∧
      (∀ entries : List FileEntry,
        (∃ e ∈ entries, e.name = "best.pt") →
          resolve_checkpoint_in_dir (some entries) = some "best.pt") ∧
      (∀ entries : List FileEntry,
        (¬ ∃ e ∈ entries, e.name = "best.pt") →
          ∀ r, resolve_checkpoint_in_dir (some entries) = some r →
            ∃ re ∈ entries, re.name = r ∧ re.name.endsWith ".pt" = true ∧
              ∀ p ∈ entries, p.name.endsWith ".pt" = true →
                keyLe (sort_key p) (sort_key re)) ∧
      resolve_checkpoint_in_dir
          (some [⟨"best.pt", 0⟩, ⟨"model_epoch-7.pt", 1⟩]) = some "best.pt" ∧
      resolve_checkpoint_in_dir
          (some [⟨"epoch-3.pt", 0⟩, ⟨"epoch-9.pt", 1⟩, ⟨"epoch-1.pt", 2⟩]) =
        some "epoch-9.pt" := by
  refine ⟨rfl, ?_, ?_, ?_, by with_unfolding_all decide, by with_unfolding_all decide⟩
  · intro entries hall
    have hany : entries.any (fun e => e.name == "best.pt") = false := by
      rw [List.any_eq_false]
      intro e he hbe
      have : e.name = "best.pt" := by simpa using hbe
      have h1 := hall e he
      rw [this] at h1
      exact absurd h1 (by with_unfolding_all decide)
    have hfil : entries.filter (fun e => e.name.endsWith ".pt") = [] := by
      rw [List.filter_eq_nil_iff]
      intro e he
      simp [hall e he]
    simp [resolve_checkpoint_in_dir, hany, hfil]
  · intro entries hbest
    obtain ⟨e, he, hname⟩ := hbest
    have hany : entries.any (fun e => e.name == "best.pt") = true := by
      rw [List.any_eq_true]
      exact ⟨e, he, by simp [hname]⟩
    simp [resolve_checkpoint_in_dir, hany]
  · intro entries hnobest r hres
    have hany : entries.any (fun e => e.name == "best.pt") = false := by
      rw [List.any_eq_false]
      intro e he hbe
      exact hnobest ⟨e, he, by simpa using hbe⟩
    rw [resolve_checkpoint_in_dir] at hres
    simp only [hany, Bool.false_eq_true, if_false] at hres
    by_cases hpt : (entries.filter (fun e => e.name.endsWith ".pt")).isEmpty
    · rw [if_pos hpt] at hres
      exact absurd hres (by simp)
    · rw [if_neg hpt] at hres
      have hsorted := List.sorted_insertionSort entryGe
        (entries.filter (fun e => e.name.endsWith ".pt"))
      have hperm := List.perm_insertionSort entryGe
        (entries.filter (fun e => e.name.endsWith ".pt"))
      cases hs : List.insertionSort entryGe (entries.filter (fun e => e.name.endsWith ".pt")) with
      | nil =>
        rw [hs] at hperm
        have : entries.filter (fun e => e.name.endsWith ".pt") = [] := hperm.symm.eq_nil
        rw [this] at hpt
        simp at hpt
      | cons hd tl =>
        rw [hs] at hres
        simp only [List.head?_cons, Option.map_some] at hres
        have hrname : hd.name = r := by
          injection hres
        have hhd : hd ∈ entries.filter (fun e => e.name.endsWith ".pt") := by
          rw [← List.mem_insertionSort entryGe, hs]
          exact List.mem_cons_self hd tl
        have hhd2 := List.mem_filter.mp hhd
        refine ⟨hd, hhd2.1, hrname, hhd2.2, ?_⟩
        intro p hp hppt
        have hpfil : p ∈ entries.filter (fun e => e.name.endsWith ".pt") :=
          List.mem_filter.mpr ⟨hp, hppt⟩
        rw [← List.mem_insertionSort entryGe, hs] at hpfil
        rcases List.mem_cons.mp hpfil with heq | htl
        · rw [heq]
          exact keyLe_refl _
        · rw [hs] at hsorted
          exact List.rel_of_sorted_cons hsorted p htl

/-- C5 witness: resolver outcomes on concrete directories, obtained from the
general theorem: a directory with no .pt file resolves to none; a directory
containing best.pt resolves to best.pt. -/
theorem c5_resolver_witness :
    resolve_checkpoint_in_dir (some [⟨"notes.txt", 3⟩]) = none ∧
      resolve_checkpoint_in_dir (some [⟨"a.pt", 0⟩, ⟨"best.pt", 1⟩]) = some "best.pt" :=
  ⟨c5_resolver.2.1 [⟨"notes.txt", 3⟩] (by with_unfolding_all decide),
    c5_resolver.2.2.1 [⟨"a.pt", 0⟩, ⟨"best.pt", 1⟩] (by with_unfolding_all decide)⟩

/-! ### C4: top_k structure selection -/

theorem argsort_length (a : List ℚ) : (argsort a).length = a.length := by
  unfold argsort
  rw [List.length_insertionSort, List.length_range]

theorem argsort_perm (a : List ℚ) : (argsort a).Perm (List.range a.length) :=
  List.perm_insertionSort _ _

theorem argsort_sorted (a : List ℚ) : List.Sorted (idxLe a) (argsort a) :=
  List.sorted_insertionSort _ _

theorem mapGetDRange {α : Type} (l : List α) (d : α) :
    (List.range l.length).map (fun j => l.getD j d) = l := by
  apply List.ext_getElem
  · simp
  · intro i h1 h2
    simp [List.getD_eq_getElem?_getD, List.getElem?_eq_getElem h2]

theorem negmap_getD (scores : List ℚ) (i : Nat) :
    (scores.map (fun s => -s)).getD i 0 = -(scores.getD i 0) := by
  rcases Nat.lt_or_ge i scores.length with h | h
  · rw [List.getD_eq_getElem?_getD, List.getD_eq_getElem?_getD,
      List.getElem?_eq_getElem (by simpa using h), List.getElem?_eq_getElem h]
    simp
  · have h1 : (scores.map (fun s => -s)).length ≤ i := by simpa using h
    rw [List.getD_eq_getElem?_getD, List.getD_eq_getElem?_getD,
      List.getElem?_eq_none h1, List.getElem?_eq_none h]
    simp

theorem topk_eq (scores : List ℚ) (k : Nat) (hk : k < scores.length) :
    top_k scores k = some ((argsort (scores.map (fun s => -s))).take k) := by
  have hlen : (scores.map (fun s => -s)).length = scores.length := List.length_map _ _
  have hap : argpartition (scores.map (fun s => -s)) k =
      some (argsort (scores.map (fun s => -s))) := by
    unfold argpartition
    rw [if_pos (by rw [hlen]; exact hk)]
  have hklen : k ≤ (argsort (scores.map (fun s => -s))).length := by
    rw [argsort_length, hlen]
    exact le_of_lt hk
  have hidxlen : ((argsort (scores.map (fun s => -s))).take k).length = k := by
    rw [List.length_take]
    exact Nat.min_eq_left hklen
  set idx := (argsort (scores.map (fun s => -s))).take k with hidx
  have hidx_sorted : idx.Pairwise (idxLe (scores.map (fun s => -s))) :=
    (argsort_sorted (scores.map (fun s => -s))).sublist (List.take_sublist _ _)
  set b := idx.map (fun i => -(scores.getD i 0)) with hb
  have hblen : b.length = k := by rw [hb, List.length_map, hidxlen]
  have hbget : ∀ (p : Nat) (hp : p < idx.length), b.getD p 0 =
      (scores.map (fun s => -s)).getD (idx.get ⟨p, hp⟩) 0 := by
    intro p hp
    have hp2 : p < (idx.map (fun i => -(scores.getD i 0))).length := by
      rw [List.length_map]
      exact hp
    rw [hb, List.getD_eq_getElem?_getD, List.getElem?_eq_getElem hp2, Option.getD_some,
      List.getElem_map, negmap_getD, List.get_eq_getElem]
  have hrangeSorted : List.Sorted (idxLe b) (List.range k) := by
    apply List.Pairwise.imp_of_mem ?_ (List.pairwise_lt_range k)
    intro p q hp hq hpq
    have hplt : p < idx.length := by rw [hidxlen]; exact List.mem_range.mp hp
    have hqlt : q < idx.length := by rw [hidxlen]; exact List.mem_range.mp hq
    have hrel : idxLe (scores.map (fun s => -s)) (idx.get ⟨p, hplt⟩) (idx.get ⟨q, hqlt⟩) :=
      List.pairwise_iff_get.mp hidx_sorted ⟨p, hplt⟩ ⟨q, hqlt⟩ hpq
    unfold idxLe at hrel ⊢
    rw [hbget p hplt, hbget q hqlt]
    rcases hrel with h | ⟨he, -⟩
    · exact Or.inl h
    · exact Or.inr ⟨he, le_of_lt hpq⟩
  have hinner : argsort b = List.range k := by
    unfold argsort
    rw [hblen]
    exact List.Sorted.insertionSort_eq hrangeSorted
  have hfinal : (argsort b).map (fun j => idx.getD j 0) = idx := by
    rw [hinner, ← hidxlen]
    exact mapGetDRange idx 0
  unfold top_k
  rw [hap]
  show some ((argsort b).map (fun j => idx.getD j 0)) = some idx
  rw [hfinal]

/-- C4 (amended): for 1 <= K < N the selector returns, without error, the
first K entries of the full index sort of the negated scores — i.e. the K
highest-scoring indices ordered descending by score with ties by ascending
original index (numpy's unstable selection modelled stably) — and on the
example scores with K = 2 it returns [1, 3]; for K >= N (see the
counterexample) np.argpartition raises instead of selecting all N. -/
theorem c4_top_k_amended :
    (∀ (scores : List ℚ) (k : Nat), k < scores.length →
      top_k scores k = some ((argsort (scores.map (fun s => -s))).take k) ∧
        (argsort (scores.map (fun s => -s))).Perm (List.range scores.length) ∧
        List.Sorted (idxLe (scores.map (fun s => -s))) (argsort (scores.map (fun s => -s))) ∧
        ((argsort (scores.map (fun s => -s))).take k).length = k) ∧
      top_k [1/10, 9/10, 3/10, 9/10, 1/20] 2 = some [1, 3] := by
  refine ⟨fun scores k hk => ⟨topk_eq scores k hk, ?_, argsort_sorted _, ?_⟩,
    by with_unfolding_all decide⟩
  · have h := argsort_perm (scores.map (fun s => -s))
    rwa [List.length_map] at h
  · rw [List.length_take, argsort_length, List.length_map]
    exact Nat.min_eq_left (le_of_lt hk)

/-- C4 counterexample: on the claim's own example array of length 5, top_k
with K = 6 > N (and already with K = 5 = N) evaluates to the embedded
ValueError of np.argpartition (none) rather than selecting all N indices. -/
theorem c4_top_k_counterexample :
    top_k [1/10, 9/10, 3/10, 9/10, 1/20] 6 = none ∧
      top_k [1/10, 9/10, 3/10, 9/10, 1/20] 5 = none := by
  with_unfolding_all decide

/-- C4 witness: the amended theorem instantiated at the example scores with
K = 2. -/
theorem c4_top_k_witness :
    top_k [1/10, 9/10, 3/10, 9/10, 1/20] 2 =
        some ((argsort (([1/10, 9/10, 3/10, 9/10, 1/20] : List ℚ).map (fun s => -s))).take 2) ∧
      ((argsort (([1/10, 9/10, 3/10, 9/10, 1/20] : List ℚ).map (fun s => -s))).take 2).length =
        2 := by
  have h := c4_top_k_amended.1 [1/10, 9/10, 3/10, 9/10, 1/20] 2 (by decide)
  exact ⟨h.1, h.2.2.2⟩

/-! ### C7: score_force_rms_std -/

theorem sqNorm_nonneg (v : ℚ × ℚ × ℚ) : 0 ≤ sqNorm v := by
  unfold sqNorm
  positivity

theorem meanSqMag_nonneg (F : List (ℚ × ℚ × ℚ)) : 0 ≤ meanSqMag F := by
  unfold meanSqMag
  apply div_nonneg _ (Nat.cast_nonneg _)
  apply List.sum_nonneg
  intro x hx
  obtain ⟨v, -, hv⟩ := List.mem_map.mp hx
  rw [← hv]
  exact sqNorm_nonneg v

theorem castSumAux (F : List (ℚ × ℚ × ℚ)) :
    (F.map (fun v => ((sqNorm v : ℚ) : ℝ))).sum = (((F.map sqNorm).sum : ℚ) : ℝ) := by
  induction F with
  | nil => simp
  | cons x xs ih => simp [ih]

theorem rmsMag_eq (F : List (ℚ × ℚ × ℚ)) :
    rmsMag F = Real.sqrt ((meanSqMag F : ℝ)) := by
  unfold rmsMag atomMags meanSqMag
  congr 1
  have hmap : (F.map (fun v => Real.sqrt ((sqNorm v : ℚ) : ℝ))).map (fun m => m ^ 2) =
      F.map (fun v => ((sqNorm v : ℚ) : ℝ)) := by
    rw [List.map_map]
    apply List.map_congr_left
    intro v _
    exact Real.sq_sqrt (by exact_mod_cast sqNorm_nonneg v)
  rw [hmap, castSumAux]
  push_cast
  ring

theorem stdList_pair (a b : ℝ) : stdList [a, b] = Real.sqrt ((a - b) ^ 2 / 4) := by
  unfold stdList meanList
  simp only [List.map_cons, List.map_nil, List.sum_cons, List.sum_nil, List.length_cons,
    List.length_nil]
  congr 1
  push_cast
  ring

theorem score_pair_eq (F G : List (ℚ × ℚ × ℚ)) :
    score_force_rms_std [F, G] = Real.sqrt ((rmsMag F - rmsMag G) ^ 2 / 4) := by
  unfold score_force_rms_std
  rw [List.map_cons, List.map_cons, List.map_nil]
  exact stdList_pair _ _

theorem score_eq_zero_of_meanSq (F G : List (ℚ × ℚ × ℚ))
    (h : meanSqMag F = meanSqMag G) : score_force_rms_std [F, G] = 0 := by
  rw [score_pair_eq, rmsMag_eq, rmsMag_eq, h]
  simp

/-- C7 (amended): score_force_rms_std is the standard deviation across the
members of the per-member RMS force magnitude sqrt(mean of squared
per-atom force norms); for M = 2 identical predictions the score is exactly
0; and perturbing one member strictly increases the score from 0 whenever
the perturbation changes that member's mean squared force magnitude — a
magnitude-preserving perturbation (see the counterexample) leaves it at 0. -/
theorem c7_force_rms_std_amended :
    (∀ stack : List (List (ℚ × ℚ × ℚ)),
      score_force_rms_std stack = stdList (stack.map rmsMag)) ∧
      (∀ F : List (ℚ × ℚ × ℚ), rmsMag F = Real.sqrt ((meanSqMag F : ℝ))) ∧
      (∀ F : List (ℚ × ℚ × ℚ), score_force_rms_std [F, F] = 0) ∧
      (∀ F G : List (ℚ × ℚ × ℚ), meanSqMag F ≠ meanSqMag G →
        0 < score_force_rms_std [F, G]) := by
  refine ⟨fun stack => rfl, rmsMag_eq, fun F => score_eq_zero_of_meanSq F F rfl,
    fun F G h => ?_⟩
  rw [score_pair_eq, rmsMag_eq, rmsMag_eq]
  apply Real.sqrt_pos.mpr
  have hne : Real.sqrt ((meanSqMag F : ℝ)) ≠ Real.sqrt ((meanSqMag G : ℝ)) := by
    intro heq
    apply h
    have h1 : (meanSqMag F : ℝ) = (meanSqMag G : ℝ) :=
      (Real.sqrt_inj (by exact_mod_cast meanSqMag_nonneg F)
        (by exact_mod_cast meanSqMag_nonneg G)).mp heq
    exact_mod_cast h1
  have hsub : Real.sqrt ((meanSqMag F : ℝ)) - Real.sqrt ((meanSqMag G : ℝ)) ≠ 0 :=
    sub_ne_zero.mpr hne
  exact div_pos (pow_two_pos_of_ne_zero hsub) (by norm_num)

/-- C7 counterexample: two identical one-atom force sets give score 0, and
perturbing the second member by negating its force vector — a perturbation
that preserves the force magnitude — leaves the score at exactly 0 instead
of strictly increasing it. -/
theorem c7_force_rms_std_counterexample :
    score_force_rms_std [[((1 : ℚ), (0 : ℚ), (0 : ℚ))], [((1 : ℚ), (0 : ℚ), (0 : ℚ))]] = 0 ∧
      score_force_rms_std [[((1 : ℚ), (0 : ℚ), (0 : ℚ))], [((-1 : ℚ), (0 : ℚ), (0 : ℚ))]] =
        0 :=
  ⟨score_eq_zero_of_meanSq _ _ rfl,
    score_eq_zero_of_meanSq _ _ (by with_unfolding_all decide)⟩

/-- C7 witness: identical members score exactly 0, and a perturbation that
doubles the only force (changing the mean squared magnitude from 1 to 4)
makes the score strictly positive. -/
theorem c7_force_rms_std_witness :
    score_force_rms_std [[((3 : ℚ), (0 : ℚ), (0 : ℚ))], [((3 : ℚ), (0 : ℚ), (0 : ℚ))]] = 0 ∧
      0 < score_force_rms_std [[((1 : ℚ), (0 : ℚ), (0 : ℚ))], [((2 : ℚ), (0 : ℚ), (0 : ℚ))]] :=
  ⟨c7_force_rms_std_amended.2.2.1 _,
    c7_force_rms_std_amended.2.2.2 _ _ (by with_unfolding_all decide)⟩

end MaceFreeze
